import Mathlib

/-!
Verification of the TubeBenderReviews core logic: the total-cost-of-ownership
projector (`POST /api/cost-calculator` in `server/routes.ts`) and the scoring
engine used by the `ScoringBreakdown` client component
(`client/src/components/scoring-breakdown.tsx`), over the product schema of
`shared/schema.ts`.

Numbers are modelled exactly: JavaScript numbers become `ℚ`, with `Option`
encoding the `NaN`/`undefined` results of the partial operations
(`parseFloat`, member access on a possibly-undefined array element).
-/

namespace TBR

/-- The fields of a `tube_benders` row (`shared/schema.ts`) that the cost
projector and the scoring engine read.  `priceMin`/`priceMax`,
`wallThicknessCapacity` are nullable columns, hence `Option`. -/
structure TubeBender where
  id : ℤ
  name : String
  brand : String
  rating : String
  priceRange : String
  priceMin : Option ℚ
  priceMax : Option ℚ
  countryOfOrigin : String
  bendAngle : ℤ
  warranty : String
  supportQuality : ℤ
  buildQuality : ℤ
  valueScore : ℤ
  features : List String
  mandrelBender : String
  wallThicknessCapacity : Option String
  sBendCapability : Bool
  deriving Repr, DecidableEq

/-! ### JavaScript number and string primitives -/

/-- Numeric value of a list of decimal digit characters, most significant
first (the value `parseFloat` assigns to a run of digits). -/
def natOfDigits (ds : List Char) : ℕ :=
  ds.foldl (fun n c => 10 * n + (c.toNat - '0'.toNat)) 0

/-- JavaScript `parseFloat` on the string shapes this repository feeds it:
optional leading spaces, an optional sign, decimal digits with an optional
fractional part.  `none` models the `NaN` result. -/
def jsParseFloat (s : String) : Option ℚ :=
  let cs0 := s.data.dropWhile (fun c => c == ' ')
  let sign : ℚ := if cs0.head? = some '-' then -1 else 1
  let cs := if cs0.head? = some '-' ∨ cs0.head? = some '+' then cs0.tail else cs0
  let intPart := cs.takeWhile Char.isDigit
  let rest := cs.dropWhile Char.isDigit
  let fracPart := if rest.head? = some '.' then rest.tail.takeWhile Char.isDigit else []
  if intPart = [] ∧ fracPart = [] then none
  else some (sign * ((natOfDigits intPart : ℚ) +
    (natOfDigits fracPart : ℚ) / (10 : ℚ) ^ fracPart.length))

/-- JavaScript `x || d` applied to a number `x` that may be `NaN` (`none`):
both `NaN` and `0` are falsy and give the default. -/
def jsOrDefault (x : Option ℚ) (d : ℚ) : ℚ :=
  match x with
  | none => d
  | some v => if v = 0 then d else v

/-- JavaScript `Math.round`: half-up rounding. -/
def jsRound (q : ℚ) : ℤ := ⌊q + 1 / 2⌋

/-- `s.replace(/[^0-9]/g, '')` of `routes.ts`: keep only decimal digits. -/
def stripNonDigits (s : String) : String := ⟨s.data.filter Char.isDigit⟩

/-! ### Cost projector request (`costCalculationRequestSchema`, routes.ts 9–13) -/

inductive Usage where
  | light | medium | heavy
  deriving Repr, DecidableEq

inductive Material where
  | mildSteel | chromoly | aluminum | stainlessSteel
  deriving Repr, DecidableEq

inductive Timeline where
  | oneToTwoYears | threeToFiveYears | fivePlusYears
  deriving Repr, DecidableEq

structure CostRequest where
  usage : Usage
  material : Material
  timeline : Timeline
  deriving Repr, DecidableEq

/-- A cost-calculator request body before validation: three string fields. -/
structure RawCostRequest where
  usage : String
  material : String
  timeline : String
  deriving Repr, DecidableEq

def parseUsage (s : String) : Option Usage :=
  if s = "light" then some .light
  else if s = "medium" then some .medium
  else if s = "heavy" then some .heavy
  else none

def parseMaterial (s : String) : Option Material :=
  if s = "mild-steel" then some .mildSteel
  else if s = "chromoly" then some .chromoly
  else if s = "aluminum" then some .aluminum
  else if s = "stainless-steel" then some .stainlessSteel
  else none

def parseTimeline (s : String) : Option Timeline :=
  if s = "1-2-years" then some .oneToTwoYears
  else if s = "3-5-years" then some .threeToFiveYears
  else if s = "5-plus-years" then some .fivePlusYears
  else none

/-- The `path` heads of the `ZodError` issues raised by
`costCalculationRequestSchema.parse`: one entry per enum field whose value
is outside its closed set, in field order. -/
def invalidFields (r : RawCostRequest) : List String :=
  (if (parseUsage r.usage).isNone then ["usage"] else []) ++
  (if (parseMaterial r.material).isNone then ["material"] else []) ++
  (if (parseTimeline r.timeline).isNone then ["timeline"] else [])

/-- Zod validation `costCalculationRequestSchema.parse(req.body)`: either the
typed request or a `ZodError` carrying the invalid field names. -/
def parseCostRequest (r : RawCostRequest) : Except (List String) CostRequest :=
  match parseUsage r.usage, parseMaterial r.material, parseTimeline r.timeline with
  | some u, some m, some t => .ok ⟨u, m, t⟩
  | _, _, _ => .error (invalidFields r)

/-! ### Cost projector computation (routes.ts 329–391) -/

/-- routes.ts 345: `usage === "light" ? 0.5 : usage === "medium" ? 1 : 1.5`. -/
def usageMultiplier : Usage → ℚ
  | .light => 1 / 2
  | .medium => 1
  | .heavy => 3 / 2

/-- routes.ts 346: `timeline === "1-2-years" ? 1 : timeline === "3-5-years" ? 2 : 3`. -/
def timelineMultiplier : Timeline → ℚ
  | .oneToTwoYears => 1
  | .threeToFiveYears => 2
  | .fivePlusYears => 3

/-- routes.ts 338: `parseFloat(bender.priceRange.replace(/[^0-9]/g, '')) || 1000`. -/
def initialCost (priceRange : String) : ℚ :=
  jsOrDefault (jsParseFloat (stripNonDigits priceRange)) 1000

/-- One element of the `calculations` array built at routes.ts 361–373. -/
structure CostEntry where
  id : ℤ
  name : String
  brand : String
  initialCost : ℚ
  maintenanceCost : ℚ
  supportCost : ℚ
  downtimeCost : ℚ
  totalCost : ℚ
  countryOfOrigin : String
  supportQuality : ℤ
  buildQuality : ℤ
  deriving Repr, DecidableEq

/-- The per-product body of `tubeBenders.map(bender => ...)`, routes.ts 337–374. -/
def calcEntry (req : CostRequest) (bender : TubeBender) : CostEntry :=
  let ic := initialCost bender.priceRange
  let u := usageMultiplier req.usage
  let t := timelineMultiplier req.timeline
  let m := if bender.countryOfOrigin = "USA" then ic * (5 / 100) * u * t
           else ic * (15 / 100) * u * t
  let s := if bender.countryOfOrigin = "USA" then 100 * t else 300 * t
  let d := if bender.countryOfOrigin = "USA" then 50 * u * t else 200 * u * t
  { id := bender.id
    name := bender.name
    brand := bender.brand
    initialCost := ic
    maintenanceCost := m
    supportCost := s
    downtimeCost := d
    totalCost := ic + m + s + d
    countryOfOrigin := bender.countryOfOrigin
    supportQuality := bender.supportQuality
    buildQuality := bender.buildQuality }

/-- The comparator `(a, b) => a.totalCost - b.totalCost` as the Boolean
order it sorts by. -/
def costLE (a b : CostEntry) : Bool := decide (a.totalCost ≤ b.totalCost)

/-- routes.ts 377: `calculations.sort((a, b) => a.totalCost - b.totalCost)`.
ECMAScript `Array.prototype.sort` is a stable sort consistent with the
comparator, which determines its output uniquely; `List.mergeSort` is the
same stable sort. -/
def sortCalculations (l : List CostEntry) : List CostEntry := l.mergeSort costLE

/-- The JSON body of a successful cost-calculator response (routes.ts 379–384).
`bestValue` is `calculations[0]`, which is `undefined` (`none`) on an empty
array. -/
structure CostResponse where
  request : CostRequest
  calculations : List CostEntry
  bestValue : Option CostEntry
  savings : ℚ
  deriving Repr, DecidableEq

inductive ApiError where
  /-- HTTP 400 `"Invalid request data"` with the `ZodError` issues. -/
  | validation (fields : List String)
  /-- HTTP 500 `"Failed to calculate costs"`: a fault thrown inside the
  handler and swallowed by its `catch`. -/
  | serverError
  deriving Repr, DecidableEq

/-- The response-building at routes.ts 379–384.  `bestValue` may be
`undefined` without faulting, but `calculations[calculations.length - 1]
.totalCost` and `calculations[0].totalCost` are member accesses that throw
a `TypeError` (`none`) when the array is empty. -/
def buildCostResponse (req : CostRequest) (calcs : List CostEntry) : Option CostResponse :=
  match calcs[calcs.length - 1]?, calcs[0]? with
  | some lastE, some firstE =>
      some { request := req
             calculations := calcs
             bestValue := calcs[0]?
             savings := lastE.totalCost - firstE.totalCost }
  | _, _ => none

/-- The whole `POST /api/cost-calculator` handler (routes.ts 329–391) as a
function of the request body and the stored catalog. -/
def costCalculatorHandler (raw : RawCostRequest) (tubeBenders : List TubeBender) :
    Except ApiError CostResponse :=
  match parseCostRequest raw with
  | .error fs => .error (.validation fs)
  | .ok req =>
      let calculations := sortCalculations (tubeBenders.map (calcEntry req))
      match buildCostResponse req calculations with
      | some resp => .ok resp
      | none => .error .serverError

/-! ### Scoring engine

The component `ScoringBreakdown` (scoring-breakdown.tsx 19–37) calls
`calculateTubeBenderScore` from `client/src/lib/scoring-algorithm.ts` inside
`try`, and on any thrown error falls back to a single rating-derived entry.
The fallback is source code of this repository; the primary algorithm file is
not in the snapshot and is modelled from the spec below. -/

/-- One entry of `scoreBreakdown`.  `points` is `Option` because the
fallback computes it as `Math.round(parseFloat(rating) * 10)`, which is
`NaN` (`none`) when the rating text does not parse. -/
structure ScoreEntry where
  criteria : String
  points : Option ℤ
  maxPoints : ℤ
  reasoning : String
  deriving Repr, DecidableEq

/-- The scored product as the component consumes it: composite score plus
breakdown.  `totalScore` is `Option` for the same `NaN` reason. -/
structure ScoredResult where
  totalScore : Option ℤ
  scoreBreakdown : List ScoreEntry
  deriving Repr, DecidableEq

/-- JavaScript `+` on numbers that may be `NaN`: `NaN` absorbs. -/
def jsAdd : Option ℤ → Option ℤ → Option ℤ
  | some a, some b => some (a + b)
  | _, _ => none

/-- Sum of the `points` of a breakdown, with `NaN` propagation. -/
def breakdownTotal (l : List ScoreEntry) : Option ℤ :=
  (l.map ScoreEntry.points).foldr jsAdd (some 0)

/-- Clamp a raw rule contribution into `[0, cap]` (spec §4.1: every rule is
a bounded point contribution). -/
def clampPts (cap x : ℤ) : ℤ := max 0 (min cap x)

/-- Modelled from the spec (§4.1): the threshold rule quoted for the 1–10
quality scales, "support quality ≥ 9 → 10/10 points; ≥ 7 → 7/10; else
proportional". -/
def qualityRulePoints (q : ℤ) : ℤ :=
  if 9 ≤ q then 10 else if 7 ≤ q then 7 else clampPts 10 q

/-- Modelled from the spec (§4.1): price competitiveness from the structured
price band, capped at 10. -/
def priceRulePoints (priceMin priceMax : ℚ) : ℤ :=
  let mid := (priceMin + priceMax) / 2
  if mid ≤ 1500 then 10 else if mid ≤ 3000 then 7 else if mid ≤ 5000 then 4 else 1

/-- Modelled from the spec (§4.1): bend-angle capacity, capped at 10. -/
def bendAngleRulePoints (a : ℤ) : ℤ :=
  if 180 ≤ a then 10 else if 90 ≤ a then 7 else 3

/-- Modelled from the spec (§4.1): mandrel capability, capped at 10. -/
def mandrelRulePoints (m : String) : ℤ :=
  if m = "Standard" then 10 else if m = "Available" then 6 else 0

/-- Modelled from the spec (§4.1): warranty length, capped at 10. -/
def warrantyRulePoints (w : String) : ℤ :=
  if w = "Lifetime" then 10
  else if 3 ≤ natOfDigits (w.data.filter Char.isDigit) then 8
  else if 1 ≤ natOfDigits (w.data.filter Char.isDigit) then 5
  else 2

/-- Modelled from the spec (§4.1): country of origin, capped at 10. -/
def originRulePoints (c : String) : ℤ := if c = "USA" then 10 else 5

/-- Modelled from the spec (§4.1): feature count, capped at 10. -/
def featureRulePoints (fs : List String) : ℤ := clampPts 10 (2 * fs.length)

/-- Modelled from the spec (§3): S-bend capability flag, capped at 5. -/
def sBendRulePoints (b : Bool) : ℤ := if b then 5 else 0

/-- Modelled from the spec (§3): wall-thickness capacity, capped at 5. -/
def wallRulePoints (w : Option String) : ℤ :=
  match w with
  | none => 0
  | some s =>
    match jsParseFloat s with
    | none => 1
    | some v => if 15 / 100 ≤ v then 5 else 3

/-- The 11 primary breakdown entries; category caps are
10+10+10+10+10+10+10+10+10+5+5 = 100. -/
def primaryEntries (p : TubeBender) (pmin pmax : ℚ) : List ScoreEntry :=
  [ ⟨"Support Quality", some (qualityRulePoints p.supportQuality), 10,
      "Support quality " ++ toString p.supportQuality ++ "/10"⟩,
    ⟨"Build Quality", some (qualityRulePoints p.buildQuality), 10,
      "Build quality " ++ toString p.buildQuality ++ "/10"⟩,
    ⟨"Value", some (qualityRulePoints p.valueScore), 10,
      "Value score " ++ toString p.valueScore ++ "/10"⟩,
    ⟨"Price Competitiveness", some (priceRulePoints pmin pmax), 10,
      "Price band midpoint " ++ toString ((pmin + pmax) / 2)⟩,
    ⟨"Bend Angle", some (bendAngleRulePoints p.bendAngle), 10,
      "Maximum bend angle " ++ toString p.bendAngle ++ " degrees"⟩,
    ⟨"Mandrel Capability", some (mandrelRulePoints p.mandrelBender), 10,
      "Mandrel bender: " ++ p.mandrelBender⟩,
    ⟨"Warranty", some (warrantyRulePoints p.warranty), 10,
      "Warranty: " ++ p.warranty⟩,
    ⟨"Country of Origin", some (originRulePoints p.countryOfOrigin), 10,
      "Made in " ++ p.countryOfOrigin⟩,
    ⟨"Features", some (featureRulePoints p.features), 10,
      toString p.features.length ++ " notable features"⟩,
    ⟨"S-Bend Capability", some (sBendRulePoints p.sBendCapability), 5,
      if p.sBendCapability then "S-bends supported" else "No S-bend support"⟩,
    ⟨"Wall Thickness", some (wallRulePoints p.wallThicknessCapacity), 5,
      "Wall thickness capacity " ++ (p.wallThicknessCapacity.getD "not listed")⟩ ]

/-- Modelled from the spec: `calculateTubeBenderScore`
(`client/src/lib/scoring-algorithm.ts`, absent from this snapshot).  Spec
§4.1: ~11 fixed rules over the structured fields, caps summing to 100, each
rule bounded, with a justification string referencing the driving input; the
primary path throws (`Except.error`) on a record lacking the newer
structured scoring inputs, here the structured price band
`priceMin`/`priceMax`. -/
def calculateTubeBenderScore (p : TubeBender) : Except Unit ScoredResult :=
  match p.priceMin, p.priceMax with
  | some pmin, some pmax =>
      let es := primaryEntries p pmin pmax
      .ok { totalScore := breakdownTotal es, scoreBreakdown := es }
  | _, _ => .error ()

/-- The fallback of scoring-breakdown.tsx 22–36:
`baseScore = Math.round(parseFloat(product.rating) * 10)` with a single
`"Overall Rating"` entry. -/
def fallbackScore (p : TubeBender) : ScoredResult :=
  let baseScore : Option ℤ := (jsParseFloat p.rating).map (fun r => jsRound (r * 10))
  { totalScore := baseScore
    scoreBreakdown := [ ⟨"Overall Rating", baseScore, 100,
      "Based on " ++ p.rating ++ "/10 rating"⟩ ] }

/-- The `try`/`catch` of scoring-breakdown.tsx 19–37: the primary algorithm,
with any thrown error absorbed into the fallback. -/
def scoreProduct (p : TubeBender) : ScoredResult :=
  match calculateTubeBenderScore p with
  | .ok s => s
  | .error _ => fallbackScore p

/-! ### Helper lemmas -/

lemma takeWhile_all {p : Char → Bool} :
    ∀ (l : List Char), (∀ c ∈ l, p c) → l.takeWhile p = l
  | [], _ => rfl
  | c :: cs, h => by
    have hc := h c (List.mem_cons_self c cs)
    simp only [List.takeWhile_cons, hc, if_true]
    rw [takeWhile_all cs (fun a ha => h a (List.mem_cons_of_mem _ ha))]

lemma dropWhile_all {p : Char → Bool} :
    ∀ (l : List Char), (∀ c ∈ l, p c) → l.dropWhile p = []
  | [], _ => rfl
  | c :: cs, h => by
    have hc := h c (List.mem_cons_self c cs)
    simp only [List.dropWhile_cons, hc, if_true]
    exact dropWhile_all cs (fun a ha => h a (List.mem_cons_of_mem _ ha))

lemma digit_not_special {c : Char} (hc : c.isDigit = true) :
    (c == ' ') = false ∧ c ≠ '-' ∧ c ≠ '+' := by
  refine ⟨?_, ?_, ?_⟩
  · by_cases h : c = ' '
    · subst h; exact absurd hc (by decide)
    · exact beq_eq_false_iff_ne.mpr h
  · intro h; subst h; exact absurd hc (by decide)
  · intro h; subst h; exact absurd hc (by decide)

lemma jsParseFloat_nil : jsParseFloat ⟨[]⟩ = none := rfl

/-- On a nonempty all-digit string, JavaScript `parseFloat` returns exactly
the decimal value of the digits. -/
lemma jsParseFloat_digits (ds : List Char) (hall : ∀ c ∈ ds, c.isDigit) (hne : ds ≠ []) :
    jsParseFloat ⟨ds⟩ = some ((natOfDigits ds : ℚ)) := by
  cases ds with
  | nil => exact absurd rfl hne
  | cons c cs =>
    have hc := hall c (List.mem_cons_self c cs)
    obtain ⟨hsp, hminus, hplus⟩ := digit_not_special hc
    have hdrop : (c :: cs).dropWhile (fun x => x == ' ') = c :: cs := by
      simp [List.dropWhile_cons, hsp]
    have htake : (c :: cs).takeWhile Char.isDigit = c :: cs := takeWhile_all _ hall
    have hdropd : (c :: cs).dropWhile Char.isDigit = [] := dropWhile_all _ hall
    unfold jsParseFloat
    simp [hdrop, htake, hdropd, hminus, hplus, natOfDigits]

/-- The initial-cost computation of routes.ts 338, characterised as the spec
states it: the integer parsed from the digit characters of the price-range
text, defaulting to 1000 when there are no digits or their value is zero. -/
lemma initialCost_eq (s : String) :
    initialCost s =
      if s.data.filter Char.isDigit = [] ∨ natOfDigits (s.data.filter Char.isDigit) = 0
      then 1000 else (natOfDigits (s.data.filter Char.isDigit) : ℚ) := by
  unfold initialCost stripNonDigits jsOrDefault
  by_cases hnil : s.data.filter Char.isDigit = []
  · rw [hnil, jsParseFloat_nil]
    simp [hnil]
  · have hall : ∀ c ∈ s.data.filter Char.isDigit, c.isDigit :=
      fun c hc => (List.mem_filter.mp hc).2
    rw [jsParseFloat_digits _ hall hnil]
    by_cases h0 : natOfDigits (s.data.filter Char.isDigit) = 0 <;>
      simp [h0, hnil]

lemma initialCost_pos (s : String) : 0 < initialCost s := by
  rw [initialCost_eq]
  split_ifs with h
  · norm_num
  · push_neg at h
    exact_mod_cast Nat.pos_of_ne_zero h.2

lemma usageMultiplier_pos (u : Usage) : 0 < usageMultiplier u := by
  cases u <;> norm_num [usageMultiplier]

lemma timelineMultiplier_pos (t : Timeline) : 0 < timelineMultiplier t := by
  cases t <;> norm_num [timelineMultiplier]

lemma calcEntry_initialCost (req : CostRequest) (bender : TubeBender) :
    (calcEntry req bender).initialCost = initialCost bender.priceRange := rfl

lemma calcEntry_maintenance (req : CostRequest) (bender : TubeBender) :
    (calcEntry req bender).maintenanceCost =
      if bender.countryOfOrigin = "USA"
      then initialCost bender.priceRange * (5 / 100) *
        usageMultiplier req.usage * timelineMultiplier req.timeline
      else initialCost bender.priceRange * (15 / 100) *
        usageMultiplier req.usage * timelineMultiplier req.timeline := rfl

lemma calcEntry_support (req : CostRequest) (bender : TubeBender) :
    (calcEntry req bender).supportCost =
      if bender.countryOfOrigin = "USA"
      then 100 * timelineMultiplier req.timeline
      else 300 * timelineMultiplier req.timeline := rfl

lemma calcEntry_downtime (req : CostRequest) (bender : TubeBender) :
    (calcEntry req bender).downtimeCost =
      if bender.countryOfOrigin = "USA"
      then 50 * usageMultiplier req.usage * timelineMultiplier req.timeline
      else 200 * usageMultiplier req.usage * timelineMultiplier req.timeline := rfl

lemma calcEntry_total (req : CostRequest) (bender : TubeBender) :
    (calcEntry req bender).totalCost =
      (calcEntry req bender).initialCost + (calcEntry req bender).maintenanceCost +
      (calcEntry req bender).supportCost + (calcEntry req bender).downtimeCost := rfl

lemma costLE_trans : ∀ (a b c : CostEntry), costLE a b → costLE b c → costLE a c := by
  intro a b c hab hbc
  simp only [costLE, decide_eq_true_eq] at *
  exact le_trans hab hbc

lemma costLE_total : ∀ (a b : CostEntry), costLE a b || costLE b a := by
  intro a b
  simp only [costLE, Bool.or_eq_true, decide_eq_true_eq]
  exact le_total _ _

lemma sortCalculations_sorted (l : List CostEntry) :
    (sortCalculations l).Pairwise (fun a b => a.totalCost ≤ b.totalCost) := by
  have h := List.sorted_mergeSort costLE_trans costLE_total l
  exact h.imp (fun hab => by simpa [costLE] using hab)

lemma sortCalculations_stable {a b : CostEntry} {l : List CostEntry}
    (hab : a.totalCost ≤ b.totalCost) (h : [a, b].Sublist l) :
    [a, b].Sublist (sortCalculations l) :=
  List.pair_sublist_mergeSort costLE_trans costLE_total
    (by simpa [costLE] using hab) h

lemma rel_head?_getLast? {α : Type} {R : α → α → Prop} (hrefl : ∀ x, R x x)
    (l : List α) (hl : l.Pairwise R) (a b : α)
    (ha : l.head? = some a) (hb : l.getLast? = some b) : R a b := by
  cases l with
  | nil => simp at ha
  | cons x xs =>
    simp only [List.head?_cons, Option.some.injEq] at ha
    subst ha
    cases xs with
    | nil =>
      simp only [List.getLast?_singleton, Option.some.injEq] at hb
      subst hb
      exact hrefl _
    | cons y ys =>
      rw [List.getLast?_cons_cons] at hb
      exact (List.pairwise_cons.mp hl).1 b (List.mem_of_getLast?_eq_some hb)

/-- The savings the spec prescribes for a sorted calculation list: last
entry's total minus first entry's total (0 when the list is empty). -/
def savingsOf (l : List CostEntry) : ℚ :=
  (l.getLast?.elim 0 CostEntry.totalCost) - (l.head?.elim 0 CostEntry.totalCost)

lemma buildCostResponse_eq (req : CostRequest) (calcs : List CostEntry)
    (h : calcs ≠ []) :
    buildCostResponse req calcs =
      some { request := req, calculations := calcs, bestValue := calcs.head?
             savings := savingsOf calcs } := by
  have hlen : 0 < calcs.length := List.length_pos.mpr h
  have hlt : calcs.length - 1 < calcs.length := by omega
  unfold buildCostResponse
  rw [List.getElem?_eq_getElem hlt, List.getElem?_eq_getElem hlen]
  refine congrArg some ?_
  have hhead : calcs.head? = some calcs[0] := by
    rw [List.head?_eq_getElem?, List.getElem?_eq_getElem hlen]
  have hlast : calcs.getLast? = some calcs[calcs.length - 1] := by
    rw [List.getLast?_eq_getElem?, List.getElem?_eq_getElem hlt]
  simp [savingsOf, hhead, hlast, List.getElem?_eq_getElem hlen]

lemma calcEntry_components_nonneg (req : CostRequest) (bender : TubeBender) :
    0 ≤ (calcEntry req bender).initialCost ∧
    0 ≤ (calcEntry req bender).maintenanceCost ∧
    0 ≤ (calcEntry req bender).supportCost ∧
    0 ≤ (calcEntry req bender).downtimeCost := by
  have hic := (initialCost_pos bender.priceRange).le
  have hu := (usageMultiplier_pos req.usage).le
  have ht := (timelineMultiplier_pos req.timeline).le
  refine ⟨hic, ?_, ?_, ?_⟩
  · rw [calcEntry_maintenance]
    split_ifs <;>
      exact mul_nonneg (mul_nonneg (mul_nonneg hic (by norm_num)) hu) ht
  · rw [calcEntry_support]
    split_ifs <;> exact mul_nonneg (by norm_num) ht
  · rw [calcEntry_downtime]
    split_ifs <;> exact mul_nonneg (mul_nonneg (by norm_num) hu) ht

/-! ### Claim theorems -/

/-- C1: for every product record and every valid usage and timeline tier,
the per-product cost components are exactly as documented — the baseline is
the integer parsed from the digits of the price-range text (1000 when
parsing fails or yields zero), the usage multiplier is 0.5/1/1.5, the
timeline multiplier is 1/2/3, maintenance/support/downtime follow the
domestic vs. other-origin formulas, `totalCost` is the exact sum of the four
components, and all four components are non-negative. -/
theorem cost_components_as_documented (bender : TubeBender) (req : CostRequest) :
    ((calcEntry req bender).initialCost =
      if bender.priceRange.data.filter Char.isDigit = [] ∨
         natOfDigits (bender.priceRange.data.filter Char.isDigit) = 0
      then 1000 else (natOfDigits (bender.priceRange.data.filter Char.isDigit) : ℚ)) ∧
    (usageMultiplier .light = 1 / 2 ∧ usageMultiplier .medium = 1 ∧
      usageMultiplier .heavy = 3 / 2) ∧
    (timelineMultiplier .oneToTwoYears = 1 ∧ timelineMultiplier .threeToFiveYears = 2 ∧
      timelineMultiplier .fivePlusYears = 3) ∧
    ((calcEntry req bender).maintenanceCost =
      if bender.countryOfOrigin = "USA"
      then (calcEntry req bender).initialCost * (5 / 100) *
        usageMultiplier req.usage * timelineMultiplier req.timeline
      else (calcEntry req bender).initialCost * (15 / 100) *
        usageMultiplier req.usage * timelineMultiplier req.timeline) ∧
    ((calcEntry req bender).supportCost =
      if bender.countryOfOrigin = "USA"
      then 100 * timelineMultiplier req.timeline
      else 300 * timelineMultiplier req.timeline) ∧
    ((calcEntry req bender).downtimeCost =
      if bender.countryOfOrigin = "USA"
      then 50 * usageMultiplier req.usage * timelineMultiplier req.timeline
      else 200 * usageMultiplier req.usage * timelineMultiplier req.timeline) ∧
    (calcEntry req bender).totalCost =
      (calcEntry req bender).initialCost + (calcEntry req bender).maintenanceCost +
      (calcEntry req bender).supportCost + (calcEntry req bender).downtimeCost ∧
    0 ≤ (calcEntry req bender).initialCost ∧
    0 ≤ (calcEntry req bender).maintenanceCost ∧
    0 ≤ (calcEntry req bender).supportCost ∧
    0 ≤ (calcEntry req bender).downtimeCost := by
  obtain ⟨h1, h2, h3, h4⟩ := calcEntry_components_nonneg req bender
  exact ⟨(calcEntry_initialCost req bender).trans (initialCost_eq _),
    ⟨rfl, rfl, rfl⟩, ⟨rfl, rfl, rfl⟩,
    calcEntry_maintenance req bender, calcEntry_support req bender,
    calcEntry_downtime req bender, calcEntry_total req bender, h1, h2, h3, h4⟩

/-- C7: for identically priced products differing only in origin, at
usage = heavy and timeline = 5-plus-years the domestic product's projected
total cost is strictly lower than the non-domestic product's. -/
theorem domestic_strictly_cheaper (p₁ p₂ : TubeBender) (m : Material)
    (h₁ : p₁.countryOfOrigin = "USA") (h₂ : p₂.countryOfOrigin ≠ "USA")
    (hp : initialCost p₁.priceRange = initialCost p₂.priceRange) :
    (calcEntry ⟨.heavy, m, .fivePlusYears⟩ p₁).totalCost <
    (calcEntry ⟨.heavy, m, .fivePlusYears⟩ p₂).totalCost := by
  have hb := initialCost_pos p₂.priceRange
  rw [calcEntry_total, calcEntry_total, calcEntry_initialCost, calcEntry_initialCost,
    calcEntry_maintenance, calcEntry_maintenance, calcEntry_support, calcEntry_support,
    calcEntry_downtime, calcEntry_downtime, if_pos h₁, if_pos h₁, if_pos h₁,
    if_neg h₂, if_neg h₂, if_neg h₂, hp]
  simp only [usageMultiplier, timelineMultiplier]
  linarith

/-- Witness for C7 at a concrete pair of products. -/
theorem domestic_strictly_cheaper_witness :
    (calcEntry ⟨.heavy, .chromoly, .fivePlusYears⟩
      ⟨1, "A", "B", "9", "$1000+", none, none, "USA", 195, "1 year", 9, 9, 9, [], "No", none, false⟩).totalCost <
    (calcEntry ⟨.heavy, .chromoly, .fivePlusYears⟩
      ⟨2, "A", "B", "9", "$1000+", none, none, "China", 195, "1 year", 9, 9, 9, [], "No", none, false⟩).totalCost :=
  domestic_strictly_cheaper _ _ _ rfl (by decide) rfl

/-- C10: a product's computed cost figures depend only on its price-range
text and country of origin (with the request's tiers); products differing
only in the merely echoed fields receive identical cost figures. -/
theorem cost_depends_only_on_price_and_origin (p₁ p₂ : TubeBender) (req : CostRequest)
    (hp : p₁.priceRange = p₂.priceRange)
    (hc : p₁.countryOfOrigin = p₂.countryOfOrigin) :
    (calcEntry req p₁).initialCost = (calcEntry req p₂).initialCost ∧
    (calcEntry req p₁).maintenanceCost = (calcEntry req p₂).maintenanceCost ∧
    (calcEntry req p₁).supportCost = (calcEntry req p₂).supportCost ∧
    (calcEntry req p₁).downtimeCost = (calcEntry req p₂).downtimeCost ∧
    (calcEntry req p₁).totalCost = (calcEntry req p₂).totalCost := by
  refine ⟨?_, ?_, ?_, ?_, ?_⟩ <;>
    simp only [calcEntry_initialCost, calcEntry_maintenance, calcEntry_support,
      calcEntry_downtime, calcEntry_total, hp, hc]

/-- C2 (the code faults): on an empty catalog the handler does not return
the guarded empty result the spec requires; evaluating
`calculations[calculations.length - 1].totalCost` throws, and the `catch`
turns the request into a 500 server error. -/
theorem empty_catalog_faults :
    costCalculatorHandler ⟨"light", "mild-steel", "1-2-years"⟩ [] =
      .error .serverError := by
  simp [costCalculatorHandler, parseCostRequest, parseUsage, parseMaterial,
    parseTimeline, sortCalculations, buildCostResponse]

/-- C3: for every valid request and catalog the returned calculation list is
sorted ascending by `totalCost`, the sort is stable (entries with equal
totals keep catalog order), and for a non-empty catalog the response is the
sorted list with `savings` equal to the last entry's total minus the first
entry's total, which is non-negative. -/
theorem calculations_sorted_stable_savings (raw : RawCostRequest) (req : CostRequest)
    (tb : List TubeBender) (a b : CostEntry)
    (hreq : parseCostRequest raw = .ok req) (hne : tb ≠ []) :
    (sortCalculations (tb.map (calcEntry req))).Pairwise
      (fun x y => x.totalCost ≤ y.totalCost) ∧
    ([a, b].Sublist (tb.map (calcEntry req)) → a.totalCost = b.totalCost →
      [a, b].Sublist (sortCalculations (tb.map (calcEntry req)))) ∧
    costCalculatorHandler raw tb =
      .ok { request := req
            calculations := sortCalculations (tb.map (calcEntry req))
            bestValue := (sortCalculations (tb.map (calcEntry req))).head?
            savings := savingsOf (sortCalculations (tb.map (calcEntry req))) } ∧
    0 ≤ savingsOf (sortCalculations (tb.map (calcEntry req))) := by
  have hsorted := sortCalculations_sorted (tb.map (calcEntry req))
  have hcne : sortCalculations (tb.map (calcEntry req)) ≠ [] := by
    intro hcontra
    apply hne
    have hlen := congrArg List.length hcontra
    simp only [sortCalculations, List.length_mergeSort, List.length_map,
      List.length_nil] at hlen
    exact List.length_eq_zero.mp hlen
  refine ⟨hsorted, fun hsub heq => sortCalculations_stable (le_of_eq heq) hsub, ?_, ?_⟩
  · unfold costCalculatorHandler
    rw [hreq]
    dsimp only
    rw [buildCostResponse_eq _ _ hcne]
  · obtain ⟨f, hf⟩ := Option.isSome_iff_exists.mp (List.head?_isSome.mpr hcne)
    obtain ⟨g, hg⟩ := Option.isSome_iff_exists.mp (List.getLast?_isSome.mpr hcne)
    have hle : f.totalCost ≤ g.totalCost :=
      rel_head?_getLast? (R := fun x y => x.totalCost ≤ y.totalCost)
        (fun x => le_refl x.totalCost) _ hsorted f g hf hg
    simp only [savingsOf, hf, hg, Option.elim]
    linarith

/-- Sample products and request used to instantiate the universally
quantified theorems at concrete inputs. -/
def sampleUSA : TubeBender :=
  ⟨1, "M600", "RogueFab", ⟨['9', '.', '2']⟩, "$1000+", some 895, some 1240, "USA", 195,
    "Lifetime", 9, 9, 9, ["hydraulic ram", "thin wall"], "Available", some "0.156", true⟩

def sampleImport : TubeBender :=
  ⟨2, "Model 32", "JD2", ⟨['7', '.', '5']⟩, "$800", none, none, "China", 180,
    "1 year", 6, 7, 8, ["manual"], "No", none, false⟩

def sampleCatalog : List TubeBender := [sampleUSA, sampleImport]

def sampleRaw : RawCostRequest := ⟨"medium", "mild-steel", "3-5-years"⟩

def sampleReq : CostRequest := ⟨.medium, .mildSteel, .threeToFiveYears⟩

/-- Witness for C3 at the concrete sample request and catalog. -/
theorem calculations_sorted_stable_savings_witness :
    parseCostRequest sampleRaw = .ok sampleReq ∧ sampleCatalog ≠ [] ∧
    ((sortCalculations (sampleCatalog.map (calcEntry sampleReq))).Pairwise
      (fun x y => x.totalCost ≤ y.totalCost) ∧
    ([calcEntry sampleReq sampleUSA, calcEntry sampleReq sampleImport].Sublist
        (sampleCatalog.map (calcEntry sampleReq)) →
      (calcEntry sampleReq sampleUSA).totalCost =
        (calcEntry sampleReq sampleImport).totalCost →
      [calcEntry sampleReq sampleUSA, calcEntry sampleReq sampleImport].Sublist
        (sortCalculations (sampleCatalog.map (calcEntry sampleReq)))) ∧
    costCalculatorHandler sampleRaw sampleCatalog =
      .ok { request := sampleReq
            calculations := sortCalculations (sampleCatalog.map (calcEntry sampleReq))
            bestValue := (sortCalculations (sampleCatalog.map (calcEntry sampleReq))).head?
            savings := savingsOf (sortCalculations (sampleCatalog.map (calcEntry sampleReq))) } ∧
    0 ≤ savingsOf (sortCalculations (sampleCatalog.map (calcEntry sampleReq)))) := by
  have hreq : parseCostRequest sampleRaw = .ok sampleReq := by
    simp [parseCostRequest, parseUsage, parseMaterial, parseTimeline, sampleRaw, sampleReq]
  have hne : sampleCatalog ≠ [] := by simp [sampleCatalog]
  exact ⟨hreq, hne, calculations_sorted_stable_savings sampleRaw sampleReq sampleCatalog
    (calcEntry sampleReq sampleUSA) (calcEntry sampleReq sampleImport) hreq hne⟩

lemma parseUsage_none_iff (s : String) :
    (parseUsage s).isNone ↔ s ∉ (["light", "medium", "heavy"] : List String) := by
  unfold parseUsage
  split_ifs with h1 h2 h3
  · subst h1; decide
  · subst h2; decide
  · subst h3; decide
  · simp [h1, h2, h3]

lemma parseMaterial_none_iff (s : String) :
    (parseMaterial s).isNone ↔
      s ∉ (["mild-steel", "chromoly", "aluminum", "stainless-steel"] : List String) := by
  unfold parseMaterial
  split_ifs with h1 h2 h3 h4
  · subst h1; decide
  · subst h2; decide
  · subst h3; decide
  · subst h4; decide
  · simp [h1, h2, h3, h4]

lemma parseTimeline_none_iff (s : String) :
    (parseTimeline s).isNone ↔
      s ∉ (["1-2-years", "3-5-years", "5-plus-years"] : List String) := by
  unfold parseTimeline
  split_ifs with h1 h2 h3
  · subst h1; decide
  · subst h2; decide
  · subst h3; decide
  · simp [h1, h2, h3]

/-- C4: a request whose usage, material, or timeline value is outside its
closed enumerated set is rejected before computation with a validation
error whose issues name every invalid field, and no result is returned. -/
theorem invalid_enum_rejected (raw : RawCostRequest) (tb : List TubeBender)
    (h : raw.usage ∉ (["light", "medium", "heavy"] : List String) ∨
      raw.material ∉ (["mild-steel", "chromoly", "aluminum", "stainless-steel"] : List String) ∨
      raw.timeline ∉ (["1-2-years", "3-5-years", "5-plus-years"] : List String)) :
    costCalculatorHandler raw tb = .error (.validation (invalidFields raw)) ∧
    invalidFields raw ≠ [] ∧
    (raw.usage ∉ (["light", "medium", "heavy"] : List String) →
      "usage" ∈ invalidFields raw) ∧
    (raw.material ∉ (["mild-steel", "chromoly", "aluminum", "stainless-steel"] : List String) →
      "material" ∈ invalidFields raw) ∧
    (raw.timeline ∉ (["1-2-years", "3-5-years", "5-plus-years"] : List String) →
      "timeline" ∈ invalidFields raw) := by
  have hmemU : raw.usage ∉ (["light", "medium", "heavy"] : List String) →
      "usage" ∈ invalidFields raw := by
    intro hh
    have := (parseUsage_none_iff raw.usage).mpr hh
    simp [invalidFields, this]
  have hmemM : raw.material ∉
      (["mild-steel", "chromoly", "aluminum", "stainless-steel"] : List String) →
      "material" ∈ invalidFields raw := by
    intro hh
    have := (parseMaterial_none_iff raw.material).mpr hh
    simp [invalidFields, this]
  have hmemT : raw.timeline ∉ (["1-2-years", "3-5-years", "5-plus-years"] : List String) →
      "timeline" ∈ invalidFields raw := by
    intro hh
    have := (parseTimeline_none_iff raw.timeline).mpr hh
    simp [invalidFields, this]
  have hne : invalidFields raw ≠ [] := by
    rcases h with hh | hh | hh
    · exact List.ne_nil_of_mem (hmemU hh)
    · exact List.ne_nil_of_mem (hmemM hh)
    · exact List.ne_nil_of_mem (hmemT hh)
  have herr : parseCostRequest raw = .error (invalidFields raw) := by
    unfold parseCostRequest
    split
    · rename_i u m t hu hm ht
      exfalso
      rcases h with hh | hh | hh
      · have := (parseUsage_none_iff raw.usage).mpr hh
        rw [hu] at this
        simp at this
      · have := (parseMaterial_none_iff raw.material).mpr hh
        rw [hm] at this
        simp at this
      · have := (parseTimeline_none_iff raw.timeline).mpr hh
        rw [ht] at this
        simp at this
    · rfl
  refine ⟨?_, hne, hmemU, hmemM, hmemT⟩
  unfold costCalculatorHandler
  rw [herr]

/-- Witness for C4 at the concrete invalid usage value `"extreme"`. -/
theorem invalid_enum_rejected_witness :
    costCalculatorHandler ⟨"extreme", "mild-steel", "1-2-years"⟩ [] =
      .error (.validation (invalidFields ⟨"extreme", "mild-steel", "1-2-years"⟩)) ∧
    invalidFields ⟨"extreme", "mild-steel", "1-2-years"⟩ ≠ [] ∧
    ("extreme" ∉ (["light", "medium", "heavy"] : List String) →
      "usage" ∈ invalidFields ⟨"extreme", "mild-steel", "1-2-years"⟩) ∧
    ("mild-steel" ∉ (["mild-steel", "chromoly", "aluminum", "stainless-steel"] : List String) →
      "material" ∈ invalidFields ⟨"extreme", "mild-steel", "1-2-years"⟩) ∧
    ("1-2-years" ∉ (["1-2-years", "3-5-years", "5-plus-years"] : List String) →
      "timeline" ∈ invalidFields ⟨"extreme", "mild-steel", "1-2-years"⟩) :=
  invalid_enum_rejected ⟨"extreme", "mild-steel", "1-2-years"⟩ [] (Or.inl (by decide))

lemma parse_of_mem_usage {s : String}
    (h : s ∈ (["light", "medium", "heavy"] : List String)) :
    ∃ u, parseUsage s = some u := by
  cases hu : parseUsage s with
  | none =>
    exact absurd ((parseUsage_none_iff s).mp (by simp [hu])) (not_not_intro h)
  | some u => exact ⟨u, rfl⟩

lemma parse_of_mem_material {s : String}
    (h : s ∈ (["mild-steel", "chromoly", "aluminum", "stainless-steel"] : List String)) :
    ∃ m, parseMaterial s = some m := by
  cases hm : parseMaterial s with
  | none =>
    exact absurd ((parseMaterial_none_iff s).mp (by simp [hm])) (not_not_intro h)
  | some m => exact ⟨m, rfl⟩

lemma parse_of_mem_timeline {s : String}
    (h : s ∈ (["1-2-years", "3-5-years", "5-plus-years"] : List String)) :
    ∃ t, parseTimeline s = some t := by
  cases ht : parseTimeline s with
  | none =>
    exact absurd ((parseTimeline_none_iff s).mp (by simp [ht])) (not_not_intro h)
  | some t => exact ⟨t, rfl⟩

/-- C8: two valid requests differing only in the material tier produce
identical calculations, best-value entry and savings, and a valid material
value never causes a rejection. -/
theorem material_does_not_affect_result (u t m₁ m₂ : String) (tb : List TubeBender)
    (hu : u ∈ (["light", "medium", "heavy"] : List String))
    (hm₁ : m₁ ∈ (["mild-steel", "chromoly", "aluminum", "stainless-steel"] : List String))
    (hm₂ : m₂ ∈ (["mild-steel", "chromoly", "aluminum", "stainless-steel"] : List String))
    (ht : t ∈ (["1-2-years", "3-5-years", "5-plus-years"] : List String)) :
    (∃ req, parseCostRequest ⟨u, m₁, t⟩ = .ok req) ∧
    (costCalculatorHandler ⟨u, m₁, t⟩ tb).map
        (fun r => (r.calculations, r.bestValue, r.savings)) =
      (costCalculatorHandler ⟨u, m₂, t⟩ tb).map
        (fun r => (r.calculations, r.bestValue, r.savings)) := by
  obtain ⟨U, hU⟩ := parse_of_mem_usage hu
  obtain ⟨M₁, hM₁⟩ := parse_of_mem_material hm₁
  obtain ⟨M₂, hM₂⟩ := parse_of_mem_material hm₂
  obtain ⟨T, hT⟩ := parse_of_mem_timeline ht
  have hparse₁ : parseCostRequest ⟨u, m₁, t⟩ = .ok ⟨U, M₁, T⟩ := by
    simp [parseCostRequest, hU, hM₁, hT]
  have hparse₂ : parseCostRequest ⟨u, m₂, t⟩ = .ok ⟨U, M₂, T⟩ := by
    simp [parseCostRequest, hU, hM₂, hT]
  refine ⟨⟨_, hparse₁⟩, ?_⟩
  have hfun : calcEntry ⟨U, M₁, T⟩ = calcEntry ⟨U, M₂, T⟩ := rfl
  unfold costCalculatorHandler
  rw [hparse₁, hparse₂]
  dsimp only
  rw [hfun]
  by_cases hnil : sortCalculations (tb.map (calcEntry ⟨U, M₂, T⟩)) = []
  · rw [hnil]
    rfl
  · rw [buildCostResponse_eq _ _ hnil, buildCostResponse_eq _ _ hnil]
    rfl

/-- Witness for C8 at two concrete requests differing only in material. -/
theorem material_does_not_affect_result_witness :
    (∃ req, parseCostRequest ⟨"medium", "chromoly", "3-5-years"⟩ = .ok req) ∧
    (costCalculatorHandler ⟨"medium", "chromoly", "3-5-years"⟩ sampleCatalog).map
        (fun r => (r.calculations, r.bestValue, r.savings)) =
      (costCalculatorHandler ⟨"medium", "aluminum", "3-5-years"⟩ sampleCatalog).map
        (fun r => (r.calculations, r.bestValue, r.savings)) :=
  material_does_not_affect_result "medium" "3-5-years" "chromoly" "aluminum"
    sampleCatalog (by decide) (by decide) (by decide) (by decide)

/-- Witness for C10 at two concrete products differing only in the echoed
quality fields. -/
theorem cost_depends_only_on_price_and_origin_witness :
    ((calcEntry ⟨.medium, .mildSteel, .threeToFiveYears⟩
        ⟨1, "A", "B", "9", "$1000+", none, none, "USA", 195, "1 year", 9, 9, 9, [], "No", none, false⟩).totalCost =
      (calcEntry ⟨.medium, .mildSteel, .threeToFiveYears⟩
        ⟨1, "A", "B", "9", "$1000+", none, none, "USA", 195, "1 year", 3, 2, 1, [], "No", none, false⟩).totalCost) :=
  (cost_depends_only_on_price_and_origin _ _ _ rfl rfl).2.2.2.2

lemma primary_fails_of_missing (p : TubeBender)
    (hmiss : p.priceMin = none ∨ p.priceMax = none) :
    calculateTubeBenderScore p = .error () := by
  unfold calculateTubeBenderScore
  rcases hmiss with h | h
  · rw [h]
  · rw [h]
    cases p.priceMin <;> rfl

/-- C5: for a product missing the structured scoring fields, the engine
falls back to exactly one rating-derived breakdown entry whose points equal
the total score, with `totalScore = round(rating * 10)`, and the caller
still receives a score rather than a fault. -/
theorem fallback_single_rating_entry (p : TubeBender) (r : ℚ)
    (hmiss : p.priceMin = none ∨ p.priceMax = none)
    (hr : jsParseFloat p.rating = some r) :
    scoreProduct p =
      { totalScore := some (jsRound (r * 10))
        scoreBreakdown := [⟨"Overall Rating", some (jsRound (r * 10)), 100,
          "Based on " ++ p.rating ++ "/10 rating"⟩] } ∧
    (scoreProduct p).scoreBreakdown.length = 1 ∧
    (scoreProduct p).totalScore = some (jsRound (r * 10)) := by
  have heq : scoreProduct p =
      { totalScore := some (jsRound (r * 10))
        scoreBreakdown := [⟨"Overall Rating", some (jsRound (r * 10)), 100,
          "Based on " ++ p.rating ++ "/10 rating"⟩] } := by
    unfold scoreProduct
    rw [primary_fails_of_missing p hmiss]
    simp [fallbackScore, hr]
  exact ⟨heq, by rw [heq]; rfl, by rw [heq]⟩

/-- Witness for C5 at a concrete product lacking the structured price band,
with rating text `"7.5"`. -/
theorem fallback_single_rating_entry_witness :
    (sampleImport.priceMin = none ∨ sampleImport.priceMax = none) ∧
    jsParseFloat sampleImport.rating = some (15 / 2) ∧
    scoreProduct sampleImport =
      { totalScore := some (jsRound ((15 / 2) * 10))
        scoreBreakdown := [⟨"Overall Rating", some (jsRound ((15 / 2) * 10)), 100,
          "Based on " ++ sampleImport.rating ++ "/10 rating"⟩] } := by
  have hr : jsParseFloat sampleImport.rating = some (15 / 2) := by
    simp [sampleImport, jsParseFloat, List.dropWhile, List.takeWhile, natOfDigits]
    norm_num
  exact ⟨Or.inl rfl, hr,
    (fallback_single_rating_entry sampleImport (15 / 2) (Or.inl rfl) hr).1⟩

/-- A legacy record with no structured price band and an unparseable
rating text. -/
def legacyNoRating : TubeBender :=
  ⟨3, "Legacy", "Acme", ⟨['N', '/', 'A']⟩, "$600", none, none, "Taiwan", 120,
    "90 days", 5, 5, 5, [], "No", none, false⟩

/-- C9: when the legacy rating text does not parse, the fallback still
returns a result without raising, but the total score and the single
entry's points are `NaN` (modelled `none`), not an integer in [0, 100]. -/
theorem fallback_nan_score (p : TubeBender)
    (hmiss : p.priceMin = none ∨ p.priceMax = none)
    (hr : jsParseFloat p.rating = none) :
    scoreProduct p =
      { totalScore := none
        scoreBreakdown := [⟨"Overall Rating", none, 100,
          "Based on " ++ p.rating ++ "/10 rating"⟩] } ∧
    (scoreProduct p).totalScore = none ∧
    breakdownTotal (scoreProduct p).scoreBreakdown = none := by
  have heq : scoreProduct p =
      { totalScore := none
        scoreBreakdown := [⟨"Overall Rating", none, 100,
          "Based on " ++ p.rating ++ "/10 rating"⟩] } := by
    unfold scoreProduct
    rw [primary_fails_of_missing p hmiss]
    simp [fallbackScore, hr]
  refine ⟨heq, by rw [heq], by rw [heq]; rfl⟩

/-- Witness for C9 at a concrete legacy record whose rating is `"N/A"`. -/
theorem fallback_nan_score_witness :
    (legacyNoRating.priceMin = none ∨ legacyNoRating.priceMax = none) ∧
    jsParseFloat legacyNoRating.rating = none ∧
    scoreProduct legacyNoRating =
      { totalScore := none
        scoreBreakdown := [⟨"Overall Rating", none, 100,
          "Based on " ++ legacyNoRating.rating ++ "/10 rating"⟩] } := by
  have hr : jsParseFloat legacyNoRating.rating = none := by
    simp [legacyNoRating, jsParseFloat, List.dropWhile, List.takeWhile, natOfDigits]
  exact ⟨Or.inl rfl, hr,
    (fallback_nan_score legacyNoRating (Or.inl rfl) hr).1⟩

lemma clampPts_bounds (cap x : ℤ) (hcap : 0 ≤ cap) :
    0 ≤ clampPts cap x ∧ clampPts cap x ≤ cap :=
  ⟨le_max_left 0 _, max_le hcap (min_le_left _ _)⟩

lemma qualityRulePoints_bounds (q : ℤ) :
    0 ≤ qualityRulePoints q ∧ qualityRulePoints q ≤ 10 := by
  unfold qualityRulePoints
  split_ifs
  · norm_num
  · norm_num
  · exact clampPts_bounds 10 q (by norm_num)

lemma priceRulePoints_bounds (a b : ℚ) :
    0 ≤ priceRulePoints a b ∧ priceRulePoints a b ≤ 10 := by
  unfold priceRulePoints
  dsimp only
  split_ifs <;> norm_num

lemma bendAngleRulePoints_bounds (a : ℤ) :
    0 ≤ bendAngleRulePoints a ∧ bendAngleRulePoints a ≤ 10 := by
  unfold bendAngleRulePoints
  split_ifs <;> norm_num

lemma mandrelRulePoints_bounds (m : String) :
    0 ≤ mandrelRulePoints m ∧ mandrelRulePoints m ≤ 10 := by
  unfold mandrelRulePoints
  split_ifs <;> norm_num

lemma warrantyRulePoints_bounds (w : String) :
    0 ≤ warrantyRulePoints w ∧ warrantyRulePoints w ≤ 10 := by
  unfold warrantyRulePoints
  split_ifs <;> norm_num

lemma originRulePoints_bounds (c : String) :
    0 ≤ originRulePoints c ∧ originRulePoints c ≤ 10 := by
  unfold originRulePoints
  split_ifs <;> norm_num

lemma featureRulePoints_bounds (fs : List String) :
    0 ≤ featureRulePoints fs ∧ featureRulePoints fs ≤ 10 :=
  clampPts_bounds 10 _ (by norm_num)

lemma sBendRulePoints_bounds (b : Bool) :
    0 ≤ sBendRulePoints b ∧ sBendRulePoints b ≤ 5 := by
  cases b <;> simp [sBendRulePoints]

lemma wallRulePoints_bounds (w : Option String) :
    0 ≤ wallRulePoints w ∧ wallRulePoints w ≤ 5 := by
  cases w with
  | none => norm_num [wallRulePoints]
  | some s =>
    cases hjs : jsParseFloat s with
    | none => simp [wallRulePoints, hjs]
    | some v =>
      simp only [wallRulePoints, hjs]
      split_ifs <;> norm_num

lemma jsRound_bounds {r : ℚ} (h0 : 0 ≤ r) (h10 : r ≤ 10) :
    0 ≤ jsRound (r * 10) ∧ jsRound (r * 10) ≤ 100 := by
  unfold jsRound
  constructor
  · exact Int.le_floor.mpr (by push_cast; linarith)
  · have hle : (⌊r * 10 + 1 / 2⌋ : ℚ) ≤ r * 10 + 1 / 2 := Int.floor_le _
    have : (⌊r * 10 + 1 / 2⌋ : ℚ) < 101 := by linarith
    have hlt : ⌊r * 10 + 1 / 2⌋ < 101 := by exact_mod_cast this
    omega

/-- C6: for every valid product record the composite score is an integer in
[0, 100] equal to the sum of the breakdown points — on the primary path
because the 11 bounded category caps sum to 100, on the fallback path
because a 0–10 rating scales into [0, 100]. -/
theorem total_score_in_range (p : TubeBender) (r : ℚ)
    (hr : jsParseFloat p.rating = some r) (h0 : 0 ≤ r) (h10 : r ≤ 10) :
    ∃ n : ℤ, (scoreProduct p).totalScore = some n ∧ 0 ≤ n ∧ n ≤ 100 ∧
      breakdownTotal (scoreProduct p).scoreBreakdown = some n := by
  by_cases hmiss : p.priceMin = none ∨ p.priceMax = none
  · have heq : scoreProduct p = fallbackScore p := by
      unfold scoreProduct
      rw [primary_fails_of_missing p hmiss]
    obtain ⟨hlb, hub⟩ := jsRound_bounds h0 h10
    refine ⟨jsRound (r * 10), ?_, hlb, hub, ?_⟩ <;>
      simp [heq, fallbackScore, breakdownTotal, jsAdd, hr]
  · push_neg at hmiss
    obtain ⟨pmin, hmin⟩ := Option.ne_none_iff_exists'.mp hmiss.1
    obtain ⟨pmax, hmax⟩ := Option.ne_none_iff_exists'.mp hmiss.2
    have hok : scoreProduct p =
        { totalScore := breakdownTotal (primaryEntries p pmin pmax)
          scoreBreakdown := primaryEntries p pmin pmax } := by
      unfold scoreProduct calculateTubeBenderScore
      rw [hmin, hmax]
    obtain ⟨q1l, q1u⟩ := qualityRulePoints_bounds p.supportQuality
    obtain ⟨q2l, q2u⟩ := qualityRulePoints_bounds p.buildQuality
    obtain ⟨q3l, q3u⟩ := qualityRulePoints_bounds p.valueScore
    obtain ⟨q4l, q4u⟩ := priceRulePoints_bounds pmin pmax
    obtain ⟨q5l, q5u⟩ := bendAngleRulePoints_bounds p.bendAngle
    obtain ⟨q6l, q6u⟩ := mandrelRulePoints_bounds p.mandrelBender
    obtain ⟨q7l, q7u⟩ := warrantyRulePoints_bounds p.warranty
    obtain ⟨q8l, q8u⟩ := originRulePoints_bounds p.countryOfOrigin
    obtain ⟨q9l, q9u⟩ := featureRulePoints_bounds p.features
    obtain ⟨q10l, q10u⟩ := sBendRulePoints_bounds p.sBendCapability
    obtain ⟨q11l, q11u⟩ := wallRulePoints_bounds p.wallThicknessCapacity
    rw [hok]
    refine ⟨qualityRulePoints p.supportQuality + (qualityRulePoints p.buildQuality +
      (qualityRulePoints p.valueScore + (priceRulePoints pmin pmax +
      (bendAngleRulePoints p.bendAngle + (mandrelRulePoints p.mandrelBender +
      (warrantyRulePoints p.warranty + (originRulePoints p.countryOfOrigin +
      (featureRulePoints p.features + (sBendRulePoints p.sBendCapability +
      (wallRulePoints p.wallThicknessCapacity + 0)))))))))), ?_, ?_, ?_, ?_⟩
    · simp [breakdownTotal, primaryEntries, jsAdd]
    · omega
    · omega
    · simp [breakdownTotal, primaryEntries, jsAdd]

/-- Witness for C6 at a concrete product with both scoring paths available
and rating text `"9.2"`. -/
theorem total_score_in_range_witness :
    jsParseFloat sampleUSA.rating = some (46 / 5) ∧ 0 ≤ (46 / 5 : ℚ) ∧
    (46 / 5 : ℚ) ≤ 10 ∧
    (∃ n : ℤ, (scoreProduct sampleUSA).totalScore = some n ∧ 0 ≤ n ∧ n ≤ 100 ∧
      breakdownTotal (scoreProduct sampleUSA).scoreBreakdown = some n) := by
  have hr : jsParseFloat sampleUSA.rating = some (46 / 5) := by
    simp [sampleUSA, jsParseFloat, List.dropWhile, List.takeWhile, natOfDigits]
    norm_num
  exact ⟨hr, by norm_num, by norm_num,
    total_score_in_range sampleUSA (46 / 5) hr (by norm_num) (by norm_num)⟩

end TBR
